import Mathlib

/-!
Verification of the teajs-redis-client Redis client (`src/lib/redis.js`, with the
near-identical TypeScript port in `src/lib/types.ts`).

JavaScript strings are modelled as `List Char` (a sequence of Unicode code
points).  JavaScript's `String.prototype.length` counts UTF-16 code units, which
is modelled by `jsLength`; the UTF-8 byte count obtained when the frame is
encoded with `Buffer.from` is modelled by `utf8Len`.  JavaScript numbers that
can be `NaN` (the result of `parseInt`) are modelled as `Option Int`, with
`none` standing for `NaN`.

Each definition mirrors one operation of `Redis.query` / `Redis.disconnect`;
the source lines are cited next to each definition.
-/

/-- JavaScript string: a sequence of Unicode code points. -/
abbrev JStr := List Char

/-- The NUL character `\0` used by the tokenizer as a space placeholder. -/
def NUL : Char := Char.ofNat 0

/-- The `\u0001` character used as the escaped-quote placeholder (`quot_replace`). -/
def SOH : Char := Char.ofNat 1

/-- JavaScript `a || b` on strings: `a` when non-empty (truthy), else `b`. -/
def jsOr (a b : JStr) : JStr := if a = [] then b else a

/-- UTF-16 code units of one code point (JS `String.length` counts these). -/
def utf16Units (c : Char) : Nat := if c.toNat < 65536 then 1 else 2

/-- JavaScript `String.prototype.length`: number of UTF-16 code units. -/
def jsLength (s : JStr) : Nat := (s.map utf16Units).sum

/-- UTF-8 byte length of a string, as produced by `Buffer.from(s)` in Node. -/
def utf8Len (s : JStr) : Nat := (s.map Char.utf8Size).sum

/-- JavaScript `String.prototype.startsWith`. -/
def strStarts (p s : JStr) : Bool := p.isPrefixOf s

/-- Characters removed by JavaScript `String.prototype.trim`
(WhiteSpace and LineTerminator code points). -/
def isJsWS (c : Char) : Bool :=
  c = ' ' || c = '\t' || c = '\n' || c = '\x0d' ||
  c.toNat = 0xb || c.toNat = 0xc || c.toNat = 0xa0 || c.toNat = 0xfeff ||
  c.toNat = 0x1680 || (0x2000 ≤ c.toNat && c.toNat ≤ 0x200a) ||
  c.toNat = 0x2028 || c.toNat = 0x2029 || c.toNat = 0x202f ||
  c.toNat = 0x205f || c.toNat = 0x3000

/-- JavaScript `String.prototype.trim` (`buf.toString('utf8').trim()`, redis.js:305). -/
def jsTrim (s : JStr) : JStr :=
  ((s.dropWhile isJsWS).reverse.dropWhile isJsWS).reverse

/-- Digits of a decimal numeral to a natural number. -/
def digitsToNat (ds : JStr) : Nat :=
  ds.foldl (fun acc c => 10 * acc + (c.toNat - '0'.toNat)) 0

/-- The maximal leading digit run of `s` as a number, `none` when there is none. -/
def digitsPrefix (s : JStr) : Option Nat :=
  let ds := s.takeWhile Char.isDigit
  if ds = [] then none else some (digitsToNat ds)

/-- JavaScript `parseInt(s, 10)`: skip whitespace, optional sign, maximal digit
run; `none` models `NaN`. -/
def jsParseInt (s : JStr) : Option Int :=
  let t := s.dropWhile isJsWS
  match t with
  | '-' :: ds => (digitsPrefix ds).map (fun n => -(n : Int))
  | '+' :: ds => (digitsPrefix ds).map (fun n => (n : Int))
  | ds => (digitsPrefix ds).map (fun n => (n : Int))

/-- Rendering of a JS number that may be `NaN` (used by template literals). -/
def jnumToStr (v : Option Int) : JStr :=
  match v with
  | none => "NaN".data
  | some i => (toString i).data

/-- `q.split("\r\n")` (redis.js:306). -/
def splitCRLF : JStr → List JStr
  | [] => [[]]
  | '\x0d' :: '\n' :: rest =>
    [] :: splitCRLF rest
  | c :: rest =>
    match splitCRLF rest with
    | [] => [[c]]
    | seg :: segs => (c :: seg) :: segs

/-- `q.split(' ')` (redis.js:238). -/
def splitSpace : JStr → List JStr
  | [] => [[]]
  | ' ' :: rest => [] :: splitSpace rest
  | c :: rest =>
    match splitSpace rest with
    | [] => [[c]]
    | seg :: segs => (c :: seg) :: segs

/-- `q.replace(/[\0\1]/g, ' ')` (redis.js:176): embedded NUL/SOH bytes become spaces. -/
def ctlToSpace (s : JStr) : JStr :=
  s.map (fun c => if c = NUL || c = SOH then ' ' else c)

/-- Line-terminator code points for JS regex `^`/`$` in multiline mode. -/
def isLineTerm (c : Char) : Bool :=
  c = '\n' || c = '\x0d' || c.toNat = 0x2028 || c.toNat = 0x2029

/-- Member of the character class `[\r\n\t]`. -/
def isRNT (c : Char) : Bool := c = '\x0d' || c = '\n' || c = '\t'

/-- Largest index `j ≥ 1` of `R` holding `\r` or `\n` (backtracking target of
`[\r\n\t]+$`: the `$` must sit just before a line terminator). -/
def lastCRLFIdxAux : Nat → Option Nat → JStr → Option Nat
  | _, best, [] => best
  | i, best, c :: rest =>
    lastCRLFIdxAux (i + 1)
      (if (c = '\x0d' || c = '\n') && 1 ≤ i then some i else best) rest

/-- See `lastCRLFIdxAux`. -/
def lastCRLFIdx (r : JStr) : Option Nat := lastCRLFIdxAux 0 none r

/-- One global-replace scan of `q.replace(/^(?:[\r\n\t]+)|(?:[\r\n\t]+)$/mg, '')`
(redis.js:177).  `anchor` records whether `^` matches at the current position
(start of string, or the previous character of the original string is a line
terminator).  At each position the first alternative `^[\r\n\t]+` greedily
takes the whole class run; otherwise `[\r\n\t]+$` takes the longest class
prefix whose end sits at the end of the string or just before a line
terminator.  The `fuel` argument is only a structural-recursion bound and is
always at least the length of the string. -/
def stripEdgesAux (anchor : Bool) : Nat → JStr → JStr
  | _, [] => []
  | 0, s => s
  | Nat.succ fuel, c :: rest =>
    if isRNT c then
      let R := c :: rest.takeWhile isRNT
      let after := rest.dropWhile isRNT
      if anchor then
        stripEdgesAux (isLineTerm (R.getLastD ' ')) fuel after
      else
        let nextLT := match after with
          | [] => true
          | d :: _ => isLineTerm d
        if nextLT then
          stripEdgesAux (isLineTerm (R.getLastD ' ')) fuel after
        else
          match lastCRLFIdx R with
          | some j => stripEdgesAux (isLineTerm (R.getD (j - 1) ' ')) fuel (R.drop j ++ after)
          | none => c :: stripEdgesAux (isLineTerm c) fuel rest
    else c :: stripEdgesAux (isLineTerm c) fuel rest

/-- `q.replace(/^(?:[\r\n\t]+)|(?:[\r\n\t]+)$/mg, '')` (redis.js:177). -/
def stripEdges (s : JStr) : JStr := stripEdgesAux true s.length s

/-- Greedily consume leading `\r\n` pairs. -/
def dropCRLFpairs : JStr → JStr
  | '\x0d' :: '\n' :: rest => dropCRLFpairs rest
  | s => s

/-- `q.replace(/(?:\r\n)+/g, '\\r\\n')` (redis.js:178): each maximal run of
CR-LF pairs becomes the four literal characters `\r\n`. -/
def collapseCRLF : Nat → JStr → JStr
  | _, [] => []
  | 0, s => s
  | Nat.succ fuel, c :: rest =>
    match c, rest with
    | '\x0d', '\n' :: rest' =>
      '\\' :: 'r' :: '\\' :: 'n' :: collapseCRLF fuel (dropCRLFpairs rest')
    | _, _ => c :: collapseCRLF fuel rest

/-- The `q.match(/[a-z]/i)` guard (redis.js:181): at least one ASCII letter. -/
def hasLetter (s : JStr) : Bool :=
  s.any (fun c => ('a' ≤ c && c ≤ 'z') || ('A' ≤ c && c ≤ 'Z'))

/-- `q.indexOf(sub)` (redis.js:200-201), `none` modelling `-1`. -/
def jsIndexOfAux (pat : JStr) : JStr → Nat → Option Nat
  | [], i => if pat = [] then some i else none
  | c :: rest, i =>
    if pat.isPrefixOf (c :: rest) then some i else jsIndexOfAux pat rest (i + 1)

/-- See `jsIndexOfAux`. -/
def jsIndexOf (pat s : JStr) : Option Nat := jsIndexOfAux pat s 0

/-- `q.replace(esc_re, (m, n) => replace + n.length + ';')` with
`esc_re = /(\\+)"/g` (redis.js:209,214): every maximal run of `n` backslashes
followed by the active quote character becomes `SOH n ;`.  `nSlash` counts the
backslashes read so far. -/
def escEncodeAux (qc : Char) (nSlash : Nat) : JStr → JStr
  | [] => List.replicate nSlash '\\'
  | c :: rest =>
    if c = '\\' then escEncodeAux qc (nSlash + 1) rest
    else if nSlash ≠ 0 && c = qc then
      (SOH :: (Nat.repr nSlash).data ++ [';']) ++ escEncodeAux qc 0 rest
    else List.replicate nSlash '\\' ++ c :: escEncodeAux qc 0 rest

/-- See `escEncodeAux`. -/
def escEncode (qc : Char) (s : JStr) : JStr := escEncodeAux qc 0 s

/-- `q.replace(replace_re, (m, n) => '\\'.repeat(count) + chr)` with
`replace_re = /\u0001([0-9]+);/g` (redis.js:211,231-234).  `st = some ds` means
an SOH followed by the (reversed) digit run `ds` has been read and not yet
resolved. -/
def escDecodeAux (qc : Char) : Option JStr → JStr → JStr
  | none, [] => []
  | none, c :: rest =>
    if c = SOH then escDecodeAux qc (some []) rest
    else c :: escDecodeAux qc none rest
  | some ds, [] => SOH :: ds.reverse
  | some ds, c :: rest =>
    if c.isDigit then escDecodeAux qc (some (c :: ds)) rest
    else if c = ';' && ds ≠ [] then
      List.replicate (digitsToNat ds.reverse) '\\' ++ qc :: escDecodeAux qc none rest
    else if c = SOH then (SOH :: ds.reverse) ++ escDecodeAux qc (some []) rest
    else (SOH :: ds.reverse) ++ c :: escDecodeAux qc none rest

/-- See `escDecodeAux`. -/
def escDecode (qc : Char) (s : JStr) : JStr := escDecodeAux qc none s

/-- First match of `q.match(match_re)` with
`match_re = /("[^"]*[ ][^"]*")/` (redis.js:210,217), for quote character `qc`:
the span between the first pair of consecutive quote characters enclosing at
least one space, both quotes included.  A failed pair's closing quote is the
next candidate opening quote, exactly as the regex engine advances.  `buf`
accumulates (reversed) the characters read since the current opening quote. -/
def spanGo (qc : Char) : Option JStr → JStr → Option JStr
  | _, [] => none
  | none, c :: rest =>
    if c = qc then spanGo qc (some []) rest else spanGo qc none rest
  | some buf, c :: rest =>
    if c = qc then
      if buf.contains ' ' then some (qc :: buf.reverse ++ [qc])
      else spanGo qc (some []) rest
    else spanGo qc (some (c :: buf)) rest

/-- See `spanGo`. -/
def firstQuotedSpan (qc : Char) (s : JStr) : Option JStr := spanGo qc none s

/-- `q.replace(str, repl)` with a plain-string pattern: replace the first
occurrence (redis.js:218). -/
def replaceFirstSub (pat repl : JStr) : JStr → JStr
  | [] => if pat = [] then repl else []
  | c :: rest =>
    if pat.isPrefixOf (c :: rest) then repl ++ (c :: rest).drop pat.length
    else c :: replaceFirstSub pat repl rest

/-- `arg[1].replace(/[ ]/g, '\0')` (redis.js:218). -/
def spacesToNUL (s : JStr) : JStr := s.map (fun c => if c = ' ' then NUL else c)

/-- The quoted-span substitution loop (redis.js:217-219):
`while ((arg = q.match(match_re)) && arg[1] && --len) { q = q.replace(arg[1], arg[1].replace(/[ ]/g,'\0')); }`
starting from `len = 1024`.  Returns the rewritten string and the final value
of `len`; the final `len ≤ 1` is the `Query parsing limit exceeded` condition
(redis.js:222).  The `len = 0` case cannot arise from the initial `len = 1024`
(in JS `--len` would go negative and stay truthy). -/
def spanLoop (qc : Char) : Nat → JStr → JStr × Nat
  | 0, q => (q, 0)
  | 1, q =>
    match firstQuotedSpan qc q with
    | none => (q, 1)
    | some _ => (q, 0)
  | Nat.succ (Nat.succ n), q =>
    match firstQuotedSpan qc q with
    | none => (q, n + 2)
    | some span => spanLoop qc (n + 1) (replaceFirstSub span (spacesToNUL span) q)

/-- Number of replacements performed by `spanLoop` (loop-body executions). -/
def spanLoopIters (qc : Char) : Nat → JStr → Nat
  | 0, _ => 0
  | 1, _ => 0
  | Nat.succ (Nat.succ n), q =>
    match firstQuotedSpan qc q with
    | none => 0
    | some span => 1 + spanLoopIters qc (n + 1) (replaceFirstSub span (spacesToNUL span) q)

/-- Consume leading spaces. -/
def eatSpaces : JStr → JStr
  | ' ' :: rest => eatSpaces rest
  | s => s

/-- `q.replace(/[ ][ ][ ]*/g, ' ')` (redis.js:228): every run of two or more
spaces becomes a single space. -/
def collapseSpaces : Nat → JStr → JStr
  | _, [] => []
  | 0, s => s
  | Nat.succ fuel, c :: rest =>
    match c, rest with
    | ' ', ' ' :: rest' => ' ' :: collapseSpaces fuel (eatSpaces rest')
    | _, _ => c :: collapseSpaces fuel rest

/-- `arg[i].replace(/\0/g, ' ')` (redis.js:245). -/
def nulToSpace (s : JStr) : JStr := s.map (fun c => if c = NUL then ' ' else c)

/-- `arg[i].match(/^(["']).*\1$/)` (redis.js:248): wrapped in one matching pair
of quote characters; `.` does not match line terminators. -/
def isQuoteWrapped (a : JStr) : Bool :=
  match a with
  | [] => false
  | c :: rest =>
    (c = '"' || c = '\'') && rest ≠ [] && rest.getLast? = some c &&
      rest.dropLast.all (fun x => !isLineTerm x)

/-- `arg[i].replace(/^(['"])|(['"])$/g, '')` (redis.js:249): drop one leading
and one trailing quote character (of either kind). -/
def stripOuterQuotes (a : JStr) : JStr :=
  let a1 := match a with
    | c :: rest => if c = '"' || c = '\'' then rest else a
    | [] => []
  match a1.getLast? with
  | some d => if d = '"' || d = '\'' then a1.dropLast else a1
  | none => a1

/-- `"\r\n"` as it appears in the frame. -/
def CRLF : JStr := ['\x0d', '\n']

/-- One argument of the RESP frame (redis.js:243-254): restore NUL bytes to
spaces, strip a surrounding quote pair, then `'$' + arg[i].length + "\r\n" +
arg[i] + "\r\n"` — note `arg[i].length` counts UTF-16 code units. -/
def encodeArg (a : JStr) : JStr :=
  let a1 := nulToSpace a
  let a2 := if isQuoteWrapped a1 then stripOuterQuotes a1 else a1
  '$' :: (Nat.repr (jsLength a2)).data ++ CRLF ++ a2 ++ CRLF

/-- The RESP request frame `'*' + len + "\r\n" + …` (redis.js:242-254). -/
def encodeFrame (args : List JStr) : JStr :=
  '*' :: (Nat.repr args.length).data ++ CRLF ++ (args.map encodeArg).flatten

/-- Outcome of the command-string-to-frame stage of `Redis.query`
(redis.js:171-254). -/
inductive BuildResult
  | ok (frame : JStr)
  | invalidFormat
  | parseLimit
deriving DecidableEq

/-- The three normalization replaces of `Redis.query` in order
(redis.js:176-178). -/
def normalizeQ (q : JStr) : JStr :=
  let q1 := ctlToSpace q
  let q2 := stripEdges q1
  collapseCRLF q2.length q2

/-- The quoted-string processing of `Redis.query` for the selected quote
character `qc` (redis.js:209-235) followed by the split and the RESP encoding
(redis.js:238-254): encode escaped quotes, run the bounded span-substitution
loop (failing with `parseLimit` when `len <= 1` afterwards), collapse space
runs, restore escaped quotes, split on spaces and build the frame. -/
def spanStage (qc : Char) (q3 : JStr) : BuildResult :=
  let q4 := escEncode qc q3
  let (q5, len') := spanLoop qc 1024 q4
  if len' ≤ 1 then .parseLimit
  else
    let q6 := collapseSpaces q5.length q5
    let q7 := escDecode qc q6
    .ok (encodeFrame (splitSpace q7))

/-- The tokenizer and encoder of `Redis.query` (redis.js:171-254): normalize,
reject letterless input, and when a quote-introducing pattern occurs process
the first-occurring quote style through `spanStage`; otherwise split and
encode directly. -/
def buildFrame (q : JStr) : BuildResult :=
  let q3 := normalizeQ q
  if !hasLetter q3 then .invalidFormat
  else
    let quot := jsIndexOf (' ' :: ['"']) q3
    let apos := jsIndexOf (' ' :: ['\'']) q3
    if quot = none && apos = none then
      .ok (encodeFrame (splitSpace q3))
    else
      let qc : Char :=
        match apos, quot with
        | none, _ => '"'
        | some a, some qv => if a > qv then '"' else '\''
        | some _, none => '\''
      spanStage qc q3

/-- One decoded reply element.  `Redis.query` returns strings, the parsed
integer of a `:` reply (`nan` standing for JS `NaN`), or `null` for a
null-bulk array element. -/
inductive RVal
  | s (v : JStr)
  | i (v : Int)
  | nan
  | null
deriving DecidableEq

/-- `result.toString()` on a JS array: elements joined by `,`, `null` printed
as the empty string (redis.js:362). -/
def rvalToStr : RVal → JStr
  | .s v => v
  | .i v => (toString v).data
  | .nan => "NaN".data
  | .null => []

/-- See `rvalToStr`. -/
def arrToStr (rs : List RVal) : JStr :=
  List.intercalate [','] (rs.map rvalToStr)

/-- `firstLine.replace(/^[\- ]+/, '')` and friends (redis.js:313,319,327,340):
drop the leading run of characters from `cls`. -/
def dropLeadingClass (cls : List Char) (s : JStr) : JStr :=
  s.dropWhile (fun c => cls.contains c)

/-- The array-walk of the `*` branch (redis.js:343-358): `isDataLine` starts
`false` and is negated at the top of each iteration; a line seen with
`isDataLine` true is pushed as a (string) element, otherwise a line matching
`/^\$\-1/` pushes `null` and sets `isDataLine` back to `true` so that it
consumes a single line.  Returns the collected elements and `validElements`. -/
def arrayWalk : Bool → List JStr → List RVal × Nat
  | _, [] => ([], 0)
  | isData, l :: ls =>
    let d := !isData
    if d then
      let (r, v) := arrayWalk d ls
      (RVal.s l :: r, v + 1)
    else if strStarts ['$', '-', '1'] l then
      let (r, v) := arrayWalk true ls
      (RVal.null :: r, v + 1)
    else arrayWalk d ls

/-- Status message of redis.js:362. -/
def invalidRespMsg (rows : Option Int) (result : List RVal) : JStr :=
  "Invalid Redis response. Expected ".data ++ jnumToStr rows ++
    " results, but got: ".data ++ arrToStr result

/-- The reply decoder of `Redis.query` (redis.js:304-372): trim the buffer,
split on CR-LF, shift the first line and dispatch on its leading byte.
Takes the pre-call `status` (the `this.status || 'OK'` fallback) and the
current `rows` (0 at this point of `query`; `-`/`+`/unknown branches do not
assign it).  Returns the new `status`, the new `rows` and the returned value
(`none` models `return null`). -/
def parseReply (status0 : JStr) (rows0 : Option Int) (buf : JStr) :
    JStr × Option Int × Option (List RVal) :=
  let lines0 := splitCRLF (jsTrim buf)
  let firstLine := lines0.headD []
  let lines := lines0.tail
  if strStarts ['-'] firstLine then
    (dropLeadingClass ['-', ' '] firstLine, rows0, none)
  else if strStarts ['+'] firstLine then
    (dropLeadingClass ['+', ' '] firstLine, rows0, some [])
  else if strStarts [':'] firstLine then
    let elem := match jsParseInt (dropLeadingClass [':', ' '] firstLine) with
      | some n => RVal.i n
      | none => RVal.nan
    (jsOr status0 "OK".data, some 1, some [elem])
  else if strStarts ['$'] firstLine then
    let rows := if strStarts ['$', '-', '1'] firstLine then some (0 : Int) else some 1
    let res := if lines = [] && rows = some 1 then [RVal.s []] else lines.map RVal.s
    (jsOr status0 "OK".data, rows, some res)
  else if strStarts ['*'] firstLine then
    let rows := jsParseInt (dropLeadingClass ['*', ' '] firstLine)
    let (result, validElements) := arrayWalk false lines
    if rows ≠ some (validElements : Int) then
      (invalidRespMsg rows result, some 0, none)
    else
      (jsOr status0 "OK".data, rows, some result)
  else
    ("Unknown Redis response format".data, rows0, none)

/-- `this.status = !q ? 'Empty query' : 'No connection'` (redis.js:167). -/
def emptyQueryMsg : JStr := "Empty query".data

/-- See `emptyQueryMsg`. -/
def noConnectionMsg : JStr := "No connection".data

/-- redis.js:182. -/
def invalidFormatMsg : JStr := "Invalid query format".data

/-- redis.js:223. -/
def parseLimitMsg : JStr := "Query parsing limit exceeded".data

/-- redis.js:279. -/
def failedSendMsg : JStr := "Failed to send command: ".data

/-- redis.js:269,300. -/
def noResponseMsg : JStr := "No response from Redis server".data

/-- redis.js:295 fallback. -/
def recvErrMsg : JStr := "Error receiving response".data

/-- Whether `connection.send` succeeds or throws (redis.js:277-280). -/
inductive SendOutcome
  | ok
  | throws (msg : JStr)
deriving DecidableEq

/-- The response callback registered by `query` (redis.js:267-273): invoked
with a falsy value it rejects with `No response from Redis server`, otherwise
it resolves with the buffer.  A message payload is `Option JStr`, with `none`
modelling a nullish (falsy) value; a real `Buffer` — even an empty one — is
truthy. -/
def callbackSettle (v : Option JStr) : Except JStr JStr :=
  match v with
  | none => .error noResponseMsg
  | some b => .ok b

/-- The transport bridge of one `query` call (redis.js:264-302): the callback
is armed, the frame is sent (a throw rejects the promise with `Failed to send
command: …`), a buffer already in `pendingResponse` is consumed immediately
(and the slot cleared — the direct invocation does not clear the armed
callback), and otherwise `promise.sync()` blocks until the `message` handler
(redis.js:85-96) fires the one-shot callback with `wire` and clears it.
`wire = none` means no message arrives while waiting: the call never returns,
modelled by the outer `none`.  Returns the settled outcome, the new
`pendingResponse` slot and whether the callback is still armed afterwards. -/
def bridgeRun (pending : Option (Option JStr)) (send : SendOutcome)
    (wire : Option (Option JStr)) :
    Option (Except JStr JStr × Option (Option JStr) × Bool) :=
  match send with
  | .throws m => some (.error (failedSendMsg ++ m), none, true)
  | .ok =>
    match pending with
    | some v => some (callbackSettle v, none, true)
    | none =>
      match wire with
      | none => none
      | some v => some (callbackSettle v, none, false)

/-- The per-instance state of the client that `query` reads and writes
(redis.js:68-79): `status`, `rows` (`Option Int`, `none` = `NaN`), whether
`connection` is non-null, the `pendingResponse` slot (holding a possibly
nullish message payload) and whether `responseCallback` is non-null. -/
structure RState where
  status : JStr
  rows : Option Int
  connection : Bool
  pendingResponse : Option (Option JStr)
  responseCallbackArmed : Bool
deriving DecidableEq

/-- `Redis.query` (redis.js:164-377): validate the input, build the frame
(`buildFrame`), reset `rows` to 0, run the transport bridge and decode the
reply.  `send` is the behaviour of `connection.send`; `wire` is the message
delivered while the call waits, if any (`none` → the call blocks forever,
modelled by the outer `none`).  Returns the post-call state and the returned
value (`none` models `return null`). -/
def Redis.query (s : RState) (q : JStr) (send : SendOutcome)
    (wire : Option (Option JStr)) : Option (RState × Option (List RVal)) :=
  if q = [] || !s.connection then
    some ({ s with status := if q = [] then emptyQueryMsg else noConnectionMsg }, none)
  else
    match buildFrame q with
    | .invalidFormat => some ({ s with status := invalidFormatMsg }, none)
    | .parseLimit => some ({ s with status := parseLimitMsg }, none)
    | .ok _frame =>
      match bridgeRun s.pendingResponse send wire with
      | none => none
      | some (.error e, pending', armed') =>
        some ({ s with status := jsOr e recvErrMsg, rows := some 0,
                       pendingResponse := pending',
                       responseCallbackArmed := armed' }, none)
      | some (.ok buf, pending', armed') =>
        let (st', rows', res) := parseReply s.status (some 0) buf
        some ({ s with status := st', rows := rows',
                       pendingResponse := pending',
                       responseCallbackArmed := armed' }, res)

/-- The pre-send failure classification of `Redis.query`: the status message
assigned when the call fails before anything is sent (empty query, no
connection, invalid format, parsing limit; redis.js:164-225), `none` when the
call reaches the send stage. -/
def earlyFailure (s : RState) (q : JStr) : Option JStr :=
  if q = [] then some emptyQueryMsg
  else if !s.connection then some noConnectionMsg
  else
    match buildFrame q with
    | .invalidFormat => some invalidFormatMsg
    | .parseLimit => some parseLimitMsg
    | .ok _ => none

/-- Whether the (terminating) call resolved with a server error reply (`-`)
whose error text is empty — the one failure path that leaves `status` empty. -/
def isEmptyServerErr (s : RState) (send : SendOutcome)
    (wire : Option (Option JStr)) : Bool :=
  match bridgeRun s.pendingResponse send wire with
  | some (.ok b, _, _) =>
    let firstLine := (splitCRLF (jsTrim b)).headD []
    strStarts ['-'] firstLine && dropLeadingClass ['-', ' '] firstLine = []
  | _ => false

/-- State of the transport bridge across calls (redis.js:77-96, 264-288):
`callback` is the armed `responseCallback` together with the time its call
began (= when its frame was sent) and whether its promise is already settled;
`pending` is the `pendingResponse` slot with the arrival time of the stored
buffer. -/
structure BridgeState where
  callback : Option (Nat × Nat × Bool)
  pending : Option (JStr × Nat)
deriving DecidableEq

/-- A recorded resolution: call `call` was resolved with `buf`, which arrived
at time `tArr`; the call began (sent its frame) at time `tBegin`;
`fromPending` marks a buffer consumed from the `pendingResponse` slot. -/
structure Resolution where
  call : Nat
  buf : JStr
  tArr : Nat
  tBegin : Nat
  fromPending : Bool
deriving DecidableEq

/-- Events driving the bridge: a `message` notification from the socket, or a
`query` call arming its callback and sending its frame. -/
inductive BEv
  | arrive (b : JStr)
  | callBegin (c : Nat)
deriving DecidableEq

/-- One event step at time `t`.  `arrive` is the `message` handler
(redis.js:85-96): an armed unsettled callback is invoked and then cleared; an
armed settled callback (left armed by a pending-slot consumption) is invoked —
resolving an already-settled promise does nothing — and cleared; with no
callback the buffer is stored in `pendingResponse`.  `callBegin` is
redis.js:265-288: the callback is armed, the frame sent, and a buffer already
in the slot is consumed at once (the direct invocation does not clear the
callback, so it stays armed with a settled promise). -/
def bstep (t : Nat) (s : BridgeState) : BEv → BridgeState × List Resolution
  | .arrive b =>
    match s.callback with
    | some (c, tb, false) => (⟨none, s.pending⟩, [⟨c, b, t, tb, false⟩])
    | some (_, _, true) => (⟨none, s.pending⟩, [])
    | none => (⟨s.callback, some (b, t)⟩, [])
  | .callBegin c =>
    match s.pending with
    | some (b, ta) => (⟨some (c, t, true), none⟩, [⟨c, b, ta, t, true⟩])
    | none => (⟨some (c, t, false), none⟩, [])

/-- Run the bridge over a list of events, starting at time `t`, collecting all
resolutions in order. -/
def brun (t : Nat) (s : BridgeState) : List BEv → BridgeState × List Resolution
  | [] => (s, [])
  | e :: es =>
    let (s', rs) := bstep t s e
    let (s'', rs') := brun (t + 1) s' es
    (s'', rs ++ rs')

/-- The client state reset by `disconnect` (redis.js:398-405):
`connection`, `pendingResponse`, `responseCallback` nulled, `messageQueue`
emptied, `rows = 0`, `status = ''`.  `messageQueue` is carried here because
`disconnect` touches it (it is otherwise unused by `query`). -/
structure CState where
  connection : Bool
  pendingResponse : Option (Option JStr)
  responseCallbackArmed : Bool
  messageQueue : List JStr
  rows : Option Int
  status : JStr
deriving DecidableEq

/-- `Redis.disconnect` (redis.js:384-407): nothing happens when `connection`
is already null; otherwise the listeners are removed and the socket closed
inside a `try` whose `catch` ignores any error (`closeThrows`), and the
`finally` block unconditionally resets every field. -/
def Redis.disconnect (closeThrows : Bool) (s : CState) : CState :=
  if s.connection then
    let _ := closeThrows
    { connection := false, pendingResponse := none, responseCallbackArmed := false,
      messageQueue := [], rows := some 0, status := [] }
  else s

/-- One unprocessed quoted block `"c d` of the parsing-limit witness input. -/
def Bblk : JStr := ['"', 'c', ' ', 'd']

/-- A processed block: the same block after its space was replaced by NUL. -/
def BblkP : JStr := ['"', 'c', NUL, 'd']

/-- A command string with 1024 consecutive quoted spans: every pair of
neighbouring quote characters encloses a space, so the substitution loop finds
a match 1024 times and runs out of its 1024-iteration budget. -/
def bigQ : JStr := 'a' :: ' ' :: (List.replicate 1024 Bblk).flatten ++ ['"']

/-- The intermediate string after `k` replacements of the substitution loop on
`bigQ`, with `m` blocks still unprocessed. -/
def Qstate (k m : Nat) : JStr :=
  'a' :: ' ' :: (List.replicate k BblkP).flatten ++
    (List.replicate m Bblk).flatten ++ ['"']

/-- The span matched at every iteration of the loop on `bigQ`. -/
def span5 : JStr := ['"', 'c', ' ', 'd', '"']

/-- A single-character prefix test succeeds exactly on strings headed by that
character. -/
theorem strStarts_single {c : Char} {s : JStr} :
    strStarts [c] s = true ↔ ∃ t, s = c :: t := by
  cases s with
  | nil => simp [strStarts, List.isPrefixOf]
  | cons d t =>
    simp only [strStarts, List.isPrefixOf, List.isPrefixOf_nil_left,
      Bool.and_true, beq_iff_eq, List.cons.injEq]
    constructor
    · intro h; exact ⟨t, h.symm, rfl⟩
    · rintro ⟨t', rfl, rfl⟩; rfl

/-- Claim C1.  The array decoder does not return the data lines: because
`isDataLine` starts `false` and is negated at the top of the loop
(redis.js:344-349), the first line after the `*N` header — a `$`-length
header — is pushed as an element, and the null-bulk line `$-1` is pushed as
the literal string `"$-1"`, not as a null element.  On the spec's own example
buffer the decoder returns `["$1", "$-1", "b"]` with `rows = 3` instead of
`["a", null, "b"]`.  This contradicts the claim (and the README's documented
MGET/LRANGE outputs), evaluating the code at the failing input. -/
theorem c1_array_decoder_pushes_header_lines :
    parseReply [] (some 0) "*3\r\n$1\r\na\r\n$-1\r\n$1\r\nb\r\n".data
      = ("OK".data, some 3,
         some [RVal.s "$1".data, RVal.s "$-1".data, RVal.s "b".data])
    ∧ (some [RVal.s "$1".data, RVal.s "$-1".data, RVal.s "b".data]
        ≠ some [RVal.s "a".data, RVal.null, RVal.s "b".data]) := by
  constructor
  · decide
  · decide

/-- Claim C2.  The `$L` prefix written by the encoder is `arg[i].length`
(redis.js:253), the UTF-16 code-unit count of the argument, not the UTF-8
byte count of the payload that `Buffer.from(msg)` actually transmits: for the
command `GET é` the frame carries `$1` for the argument `é`, whose UTF-8
payload is 2 bytes.  Evaluates the code at the failing input. -/
theorem c2_length_prefix_utf16_not_utf8 :
    buildFrame "GET é".data = .ok "*2\r\n$3\r\nGET\r\n$1\r\né\r\n".data
    ∧ jsLength ['é'] = 1 ∧ utf8Len ['é'] = 2 := by
  refine ⟨by decide, by decide, by decide⟩

/-- Counterexample to C6 as stated.  Decoding the null-bulk reply `$-1\r\n` succeeds with
`rows = 0`, but the returned sequence is empty — it has no element at all,
in particular not a one-element sequence holding a representation of the
absent value (redis.js:331-335: `lines` is empty after the first line is
shifted, and the `rows === 1` guard fails, so the empty `lines` is returned). -/
theorem c6_null_bulk_counterexample :
    parseReply [] (some 0) "$-1\r\n".data = ("OK".data, some 0, some [])
    ∧ ((parseReply [] (some 0) "$-1\r\n".data).2.2.getD [RVal.null]).length = 0 := by
  refine ⟨by decide, by decide⟩

/-- Claim C6 (amended).  Decoding `$-1\r\n` yields a successful (non-failure)
result with `rows = 0`, the result being the empty sequence: absence is
indicated by `rows = 0` together with no elements, not by a null element.
The status becomes the prior status when non-empty, else `OK`. -/
theorem c6_null_bulk_empty_result (st : JStr) (r0 : Option Int) :
    parseReply st r0 "$-1\r\n".data = (jsOr st "OK".data, some 0, some []) := rfl

/-- Claim C8.  Tokenizing and encoding `SET key "a b"` produces exactly the frame
`*3\r\n$3\r\nSET\r\n$3\r\nkey\r\n$3\r\na b\r\n`: the quoted span is one
atomic token with its internal space preserved, the outer quote pair is
stripped, and the declared argument count (3) equals the token count. -/
theorem c8_quoted_span_frame :
    buildFrame "SET key \"a b\"".data
      = .ok "*3\r\n$3\r\nSET\r\n$3\r\nkey\r\n$3\r\na b\r\n".data := by
  decide

/-- Claim C10.  After `disconnect` on a connected client the state is fully reset —
`connection`, `pendingResponse`, `responseCallback` null, `messageQueue`
empty, `rows = 0`, `status = ''` — even when closing the socket throws
(the `finally` block of redis.js:398-405 runs regardless of `closeThrows`);
on an already-disconnected client `disconnect` is a no-op leaving every field
unchanged, and `disconnect` is idempotent. -/
theorem c10_disconnect_reset_idempotent :
    (∀ (s : CState) (b : Bool), s.connection = true →
        Redis.disconnect b s = ⟨false, none, false, [], some 0, []⟩)
    ∧ (∀ (s : CState) (b : Bool), s.connection = false → Redis.disconnect b s = s)
    ∧ (∀ (s : CState) (b b' : Bool),
        Redis.disconnect b' (Redis.disconnect b s) = Redis.disconnect b s) := by
  refine ⟨fun s b h => by simp [Redis.disconnect, h],
          fun s b h => by simp [Redis.disconnect, h],
          fun s b b' => ?_⟩
  cases hc : s.connection <;> simp [Redis.disconnect, hc]

/-- Witness for C10: a connected client with every field dirty, closed with a
throwing socket, ends fully reset. -/
theorem c10_disconnect_witness :
    Redis.disconnect true
        ⟨true, some (some "B".data), true, ["m".data], some 7, "st".data⟩
      = ⟨false, none, false, [], some 0, []⟩ :=
  c10_disconnect_reset_idempotent.1 _ true rfl

/-- A one-character prefix test on a cons is equality with the head. -/
theorem strStarts_cons (p c : Char) (t : JStr) : strStarts [p] (c :: t) = (p == c) := by
  simp [strStarts, List.isPrefixOf]

/-- Claim C3 (amended).  On an integer (`:`) reply the decoder sets `status`
to `this.status || 'OK'` (redis.js:325): the prior status is retained whenever
it is non-empty and replaced by `OK` only when empty, so a non-empty status
left by an earlier call survives into the outcome of a later successful call;
`rows` is set to 1 and the parsed integer returned. -/
theorem c3_status_retention (st : JStr) (r0 : Option Int) (buf : JStr)
    (h : strStarts [':'] ((splitCRLF (jsTrim buf)).headD []) = true) :
    parseReply st r0 buf =
      (jsOr st "OK".data, some 1,
        some [match jsParseInt (dropLeadingClass [':', ' ']
                ((splitCRLF (jsTrim buf)).headD [])) with
              | some n => RVal.i n
              | none => RVal.nan]) := by
  obtain ⟨t, ht⟩ := strStarts_single.mp h
  simp only [parseReply, ht, strStarts_cons]
  simp

/-- Claim C5.  Decoding an array reply whose number of recognized elements
(`validElements`) differs from the declared count fails: the result is `null`,
`status` is the explanatory message built from the expected count and the
collected results, and `rows` is reset to 0 (redis.js:360-365). -/
theorem c5_array_count_mismatch_fails (st : JStr) (r0 : Option Int) (buf : JStr)
    (h : strStarts ['*'] ((splitCRLF (jsTrim buf)).headD []) = true)
    (hne : jsParseInt (dropLeadingClass ['*', ' '] ((splitCRLF (jsTrim buf)).headD []))
        ≠ some ((arrayWalk false (splitCRLF (jsTrim buf)).tail).2 : Int)) :
    parseReply st r0 buf =
      (invalidRespMsg
          (jsParseInt (dropLeadingClass ['*', ' '] ((splitCRLF (jsTrim buf)).headD [])))
          (arrayWalk false (splitCRLF (jsTrim buf)).tail).1,
        some 0, none) := by
  obtain ⟨t, ht⟩ := strStarts_single.mp h
  rw [ht] at hne
  simp only [parseReply, ht, strStarts_cons]
  simp [hne]

/-- Witness for C5 at the spec's example `*2\r\n$1\r\na\r\n`: declared 2,
one recognized element, so decoding fails with `rows = 0`. -/
theorem c5_array_count_mismatch_witness :
    parseReply [] (some 0) "*2\r\n$1\r\na\r\n".data
      = (invalidRespMsg
          (jsParseInt (dropLeadingClass ['*', ' ']
            ((splitCRLF (jsTrim "*2\r\n$1\r\na\r\n".data)).headD [])))
          (arrayWalk false (splitCRLF (jsTrim "*2\r\n$1\r\na\r\n".data)).tail).1,
        some 0, none) :=
  c5_array_count_mismatch_fails [] (some 0) "*2\r\n$1\r\na\r\n".data (by decide) (by decide)

/-- The failure message of the C5 witness input, concretely. -/
theorem c5_message_concrete :
    invalidRespMsg
        (jsParseInt (dropLeadingClass ['*', ' ']
          ((splitCRLF (jsTrim "*2\r\n$1\r\na\r\n".data)).headD [])))
        (arrayWalk false (splitCRLF (jsTrim "*2\r\n$1\r\na\r\n".data)).tail).1
      = "Invalid Redis response. Expected 2 results, but got: $1".data := by decide

/-- Witness for C3 (amended): decoding `:7\r\n` with a stale prior status. -/
theorem c3_status_retention_witness :
    parseReply "stale".data (some 0) ":7\r\n".data
      = (jsOr "stale".data "OK".data, some 1, some [RVal.i 7]) :=
  c3_status_retention "stale".data (some 0) ":7\r\n".data (by decide)

/-- Counterexample to C3 as stated.  Call 1 receives the error reply
`-ERR boom` and leaves `status = "ERR boom"`; call 2 receives the integer
reply `:5` and succeeds, yet its outcome still carries `status = "ERR boom"`
from the earlier call (`this.status || 'OK'`, redis.js:325) — a value of
`status` left by an earlier call survives into a later call's outcome, so
`status` is not overwritten on every call. -/
theorem c3_status_survives_counterexample :
    Redis.query ⟨[], some 0, true, none, false⟩ "GET k".data .ok
        (some (some "-ERR boom\r\n".data))
      = some (⟨"ERR boom".data, some 0, true, none, false⟩, none)
    ∧ Redis.query ⟨"ERR boom".data, some 0, true, none, false⟩ "INCR c".data .ok
        (some (some ":5\r\n".data))
      = some (⟨"ERR boom".data, some 1, true, none, false⟩, some [RVal.i 5])
    ∧ ("ERR boom".data : JStr) ≠ [] := by
  refine ⟨by decide, by decide, by decide⟩

/-- The mismatch message of the array branch is never empty. -/
theorem invalidRespMsg_ne_nil (rows : Option Int) (result : List RVal) :
    invalidRespMsg rows result ≠ [] := by
  simp only [invalidRespMsg]
  intro h
  have h1 := (List.append_eq_nil.mp ((List.append_eq_nil.mp ((List.append_eq_nil.mp h).1)).1)).1
  revert h1
  decide

/-- Shape of every failing decode: when the decoder returns `null` (starting
from `rows = 0`, as after the reset at redis.js:262), `rows` stays 0, and the
only way `status` can end up empty is a `-` reply whose text after stripping
the marker is empty. -/
theorem parseReply_none (st : JStr) (buf : JStr) :
    (parseReply st (some 0) buf).2.2 = none →
    (parseReply st (some 0) buf).2.1 = some 0 ∧
    ((parseReply st (some 0) buf).1 = [] →
      strStarts ['-'] ((splitCRLF (jsTrim buf)).headD []) = true ∧
      dropLeadingClass ['-', ' '] ((splitCRLF (jsTrim buf)).headD []) = []) := by
  simp only [parseReply]
  split
  next h1 =>
    intro _
    exact ⟨rfl, fun he => ⟨h1, he⟩⟩
  next h1 =>
    split
    next h2 => intro hx; simp at hx
    next h2 =>
      split
      next h3 => intro hx; simp at hx
      next h3 =>
        split
        next h4 => intro hx; simp at hx
        next h4 =>
          split
          next h5 =>
            split
            next hc =>
              intro _
              exact ⟨rfl, fun he => absurd he (invalidRespMsg_ne_nil _ _)⟩
            next hc => intro hx; simp at hx
          next h5 =>
            intro _
            refine ⟨rfl, fun he => absurd he (by decide)⟩

/-- JavaScript `a || b` is non-empty whenever `b` is. -/
theorem jsOr_nonempty (a b : JStr) (hb : b ≠ []) : jsOr a b ≠ [] := by
  unfold jsOr
  split
  · exact hb
  · assumption

/-- Claim C4 (amended).  Every failure path of `query` returns `null` rather
than throwing.  Pre-send validation failures (empty command, no connection,
invalid format, parsing limit) set `status` to a non-empty message but leave
`rows` unchanged — they run before the `this.rows = 0` reset at redis.js:262.
Failures at or after the send stage (transport failure, no reply, server
error reply, malformed reply, unknown reply format) leave `rows = 0`, and
their `status` can only be empty in the degenerate case of a server error
line with empty text. -/
theorem c4_failure_paths (s : RState) (q : JStr) (send : SendOutcome)
    (wire : Option (Option JStr)) (s' : RState)
    (h : Redis.query s q send wire = some (s', none)) :
    (∀ m, earlyFailure s q = some m → s'.status = m ∧ m ≠ [] ∧ s'.rows = s.rows)
    ∧ (earlyFailure s q = none → s'.rows = some 0
        ∧ (s'.status = [] → isEmptyServerErr s send wire = true)) := by
  by_cases hq : q = []
  · subst hq
    have hef : earlyFailure s [] = some emptyQueryMsg := by simp [earlyFailure]
    simp only [Redis.query] at h
    simp at h
    subst h
    refine ⟨fun m hm => ?_, fun hnone => ?_⟩
    · rw [hef] at hm
      injection hm with hm
      subst hm
      exact ⟨rfl, by decide, rfl⟩
    · rw [hef] at hnone; cases hnone
  · by_cases hc : s.connection = true
    · simp only [Redis.query, hq, hc] at h
      simp at h
      cases hbf : buildFrame q with
      | invalidFormat =>
        have hef : earlyFailure s q = some invalidFormatMsg := by
          simp [earlyFailure, hq, hc, hbf]
        rw [hbf] at h
        simp at h
        subst h
        refine ⟨fun m hm => ?_, fun hnone => ?_⟩
        · rw [hef] at hm
          injection hm with hm
          subst hm
          exact ⟨rfl, by decide, rfl⟩
        · rw [hef] at hnone; cases hnone
      | parseLimit =>
        have hef : earlyFailure s q = some parseLimitMsg := by
          simp [earlyFailure, hq, hc, hbf]
        rw [hbf] at h
        simp at h
        subst h
        refine ⟨fun m hm => ?_, fun hnone => ?_⟩
        · rw [hef] at hm
          injection hm with hm
          subst hm
          exact ⟨rfl, by decide, rfl⟩
        · rw [hef] at hnone; cases hnone
      | ok frame =>
        have hef : earlyFailure s q = none := by
          simp [earlyFailure, hq, hc, hbf]
        rw [hbf] at h
        refine ⟨fun m hm => ?_, fun _ => ?_⟩
        · rw [hef] at hm; cases hm
        · cases hbr : bridgeRun s.pendingResponse send wire with
          | none => rw [hbr] at h; simp at h
          | some v =>
            obtain ⟨outcome, p', a'⟩ := v
            cases outcome with
            | error e =>
              rw [hbr] at h
              simp at h
              subst h
              exact ⟨rfl, fun he => absurd he (jsOr_nonempty e recvErrMsg (by decide))⟩
            | ok buf =>
              rw [hbr] at h
              simp at h
              obtain ⟨h1, hres⟩ := h
              subst h1
              have hp := parseReply_none s.status buf hres
              refine ⟨hp.1, fun he => ?_⟩
              obtain ⟨hstar, hdrop⟩ := hp.2 he
              simp only [isEmptyServerErr, hbr]
              simp
              exact ⟨by simpa using hstar, by simpa using hdrop⟩
    · have hc' : s.connection = false := by revert hc; cases s.connection <;> simp
      have hef : earlyFailure s q = some noConnectionMsg := by
        simp [earlyFailure, hq, hc']
      simp only [Redis.query, hc'] at h
      simp [hq] at h
      subst h
      refine ⟨fun m hm => ?_, fun hnone => ?_⟩
      · rw [hef] at hm
        injection hm with hm
        subst hm
        exact ⟨rfl, by decide, rfl⟩
      · rw [hef] at hnone; cases hnone

/-- Counterexample to C4 as stated.  An empty command fails (returns `null`,
`status = 'Empty query'`) but `rows` keeps its prior value 5 instead of being
reset to 0: the failure happens before the reset at redis.js:262. -/
theorem c4_rows_not_reset_counterexample :
    Redis.query ⟨"x".data, some 5, true, none, false⟩ [] .ok none
      = some (⟨emptyQueryMsg, some 5, true, none, false⟩, none)
    ∧ (some 5 : Option Int) ≠ some 0 := by
  refine ⟨by decide, by decide⟩

/-- Witness for C4 (amended): the empty-command failure with prior
`rows = 5` retains `rows` and produces a non-empty status. -/
theorem c4_failure_paths_witness :
    (⟨emptyQueryMsg, some 5, true, none, false⟩ : RState).rows
        = (⟨"x".data, some 5, true, none, false⟩ : RState).rows
    ∧ emptyQueryMsg ≠ [] :=
  ⟨((c4_failure_paths ⟨"x".data, some 5, true, none, false⟩ [] .ok none
      ⟨emptyQueryMsg, some 5, true, none, false⟩ (by decide)).1 emptyQueryMsg (by decide)).2.2,
   ((c4_failure_paths ⟨"x".data, some 5, true, none, false⟩ [] .ok none
      ⟨emptyQueryMsg, some 5, true, none, false⟩ (by decide)).1 emptyQueryMsg (by decide)).2.1⟩

/-- Invariant of the bridge trace machine: every resolution not served from
the pending slot uses a buffer that arrived strictly after the call began. -/
theorem brun_tBegin_lt (evs : List BEv) :
    ∀ (t : Nat) (s : BridgeState),
      (∀ c tb st, s.callback = some (c, tb, st) → tb < t) →
      ∀ r ∈ (brun t s evs).2, r.fromPending = false → r.tBegin < r.tArr := by
  induction evs with
  | nil => intro t s _ r hr; simp [brun] at hr
  | cons e es ih =>
    intro t s hs r hr hfp
    simp only [brun] at hr
    rw [List.mem_append] at hr
    cases e with
    | arrive b =>
      cases hcb : s.callback with
      | none =>
        simp only [bstep, hcb] at hr
        cases hr with
        | inl h => simp at h
        | inr h =>
          exact ih (t + 1) _ (by intro c tb st hc; simp at hc) r h hfp
      | some v =>
        obtain ⟨c, tb, st⟩ := v
        cases st with
        | false =>
          simp only [bstep, hcb] at hr
          cases hr with
          | inl hin =>
            simp at hin
            subst hin
            exact hs c tb false hcb
          | inr hin =>
            exact ih (t + 1) _ (by intro c' tb' st' hc; simp at hc) r hin hfp
        | true =>
          simp only [bstep, hcb] at hr
          cases hr with
          | inl hin => simp at hin
          | inr hin =>
            exact ih (t + 1) _ (by intro c' tb' st' hc; simp at hc) r hin hfp
    | callBegin c =>
      cases hp : s.pending with
      | none =>
        simp only [bstep, hp] at hr
        cases hr with
        | inl hin => simp at hin
        | inr hin =>
          refine ih (t + 1) _ ?_ r hin hfp
          intro c' tb' st' hc
          simp at hc
          omega
      | some v =>
        obtain ⟨b, ta⟩ := v
        simp only [bstep, hp] at hr
        cases hr with
        | inl hin =>
          simp at hin
          subst hin
          simp at hfp
        | inr hin =>
          refine ih (t + 1) _ ?_ r hin hfp
          intro c' tb' st' hc
          simp at hc
          omega

/-- Counterexample to C9 as stated.  A buffer arriving at time 0 — before
any call — is stored in `pendingResponse`; the call beginning at time 1
consumes it immediately (redis.js:283-287) and is thereby resolved with a
buffer that arrived before its own frame was sent. -/
theorem c9_stale_pending_counterexample :
    (brun 0 ⟨none, none⟩ [.arrive "STALE".data, .callBegin 1]).2
      = [⟨1, "STALE".data, 0, 1, true⟩]
    ∧ ((brun 0 ⟨none, none⟩ [.arrive "STALE".data, .callBegin 1]).2.all
        (fun r => decide (r.tBegin < r.tArr))) = false := by
  refine ⟨by decide, by decide⟩

/-- Claim C9 (amended).  (1) Every resolution not served from the
`pendingResponse` slot uses a buffer that arrived after its call began;
(2) the one-shot hook is cleared by the `message` handler after it fires
(redis.js:90-92); (3) two sequential calls whose replies arrive during their
own waits each receive their own reply, in order.  However — per the
counterexample — a buffer already pending when a call begins is consumed by
that call even though it arrived before the call's frame was sent. -/
theorem c9_bridge_resolution :
    (∀ (evs : List BEv) (r : Resolution),
        r ∈ (brun 0 ⟨none, none⟩ evs).2 → r.fromPending = false → r.tBegin < r.tArr)
    ∧ (∀ (t : Nat) (s : BridgeState) (b : JStr),
        (bstep t s (.arrive b)).1.callback = none)
    ∧ (∀ (b1 b2 : JStr),
        (brun 0 ⟨none, none⟩ [.callBegin 1, .arrive b1, .callBegin 2, .arrive b2]).2
          = [⟨1, b1, 1, 0, false⟩, ⟨2, b2, 3, 2, false⟩]) := by
  refine ⟨fun evs r hr hfp =>
      brun_tBegin_lt evs 0 ⟨none, none⟩ (by intro c tb st hc; simp at hc) r hr hfp,
    fun t s b => ?_, fun b1 b2 => rfl⟩
  rcases s with ⟨cb, p⟩
  rcases cb with _ | ⟨⟨c, tb, st⟩⟩
  · rfl
  · cases st <;> rfl

/-- Witness for C9 (amended) on the trace `callBegin 1; arrive R`: the
resolution's begin time 0 precedes its arrival time 1. -/
theorem c9_bridge_resolution_witness :
    (⟨1, "R".data, 1, 0, false⟩ : Resolution).tBegin
      < (⟨1, "R".data, 1, 0, false⟩ : Resolution).tArr :=
  c9_bridge_resolution.1 [.callBegin 1, .arrive "R".data] ⟨1, "R".data, 1, 0, false⟩
    (by decide) rfl

/-- The substitution loop performs at most `len - 1` replacements: `--len`
reaches 0 after at most `len - 1` successful iterations. -/
theorem spanLoopIters_le (qc : Char) : ∀ (len : Nat) (q : JStr), spanLoopIters qc len q ≤ len - 1 := by
  intro len
  induction len using Nat.strong_induction_on with
  | _ len ih =>
    intro q
    match len with
    | 0 => simp [spanLoopIters]
    | 1 => simp [spanLoopIters]
    | Nat.succ (Nat.succ n) =>
      simp only [spanLoopIters]
      split
      · simp
      · next span hspan =>
        have := ih (n + 1) (by omega) (replaceFirstSub span (spacesToNUL span) q)
        omega

/-- A character map that fixes every character of a string is the identity. -/
theorem map_id_of_fixed {f : Char → Char} : ∀ (s : JStr), (∀ c ∈ s, f c = c) → s.map f = s := by
  intro s h
  induction s with
  | nil => rfl
  | cons c rest ih =>
    simp only [List.map_cons, h c (by simp), ih (fun c' hc' => h c' (by simp [hc']))]

/-- The multiline edge-strip is the identity on strings without CR, LF or TAB. -/
theorem stripEdgesAux_id : ∀ (s : JStr) (fuel : Nat) (anchor : Bool),
    (∀ c ∈ s, isRNT c = false) → stripEdgesAux anchor fuel s = s := by
  intro s
  induction s with
  | nil => intro fuel anchor _; cases fuel <;> rfl
  | cons c rest ih =>
    intro fuel anchor h
    cases fuel with
    | zero => rfl
    | succ fuel =>
      have hc := h c (by simp)
      simp only [stripEdgesAux, hc]
      simp only [Bool.false_eq_true, if_false]
      rw [ih fuel (isLineTerm c) (fun c' h' => h c' (by simp [h']))]

/-- The CR-LF collapse is the identity on strings without CR. -/
theorem collapseCRLF_id : ∀ (s : JStr) (fuel : Nat),
    (∀ c ∈ s, c ≠ '\x0d') → collapseCRLF fuel s = s := by
  intro s
  induction s with
  | nil => intro fuel _; cases fuel <;> rfl
  | cons c rest ih =>
    intro fuel h
    cases fuel with
    | zero => rfl
    | succ fuel =>
      have hc := h c (by simp)
      simp only [collapseCRLF]
      split
      · next rest2 => exact absurd rfl hc
      · rw [ih fuel (fun c' h' => h c' (by simp [h']))]

/-- The escape encoding is the identity on strings without backslashes. -/
theorem escEncodeAux_id : ∀ (s : JStr) (qc : Char),
    (∀ c ∈ s, c ≠ '\\') → escEncodeAux qc 0 s = s := by
  intro s
  induction s with
  | nil => intro qc _; rfl
  | cons c rest ih =>
    intro qc h
    have hc := h c (by simp)
    simp [escEncodeAux, hc, ih qc (fun c' h' => h c' (by simp [h']))]

/-- A string without apostrophes has no occurrence of `space apostrophe`. -/
theorem jsIndexOfAux_apos_none : ∀ (s : JStr), (∀ c ∈ s, c ≠ '\'') →
    ∀ i, jsIndexOfAux [' ', '\''] s i = none := by
  intro s h
  induction s with
  | nil => intro i; rfl
  | cons c rest ih =>
    intro i
    have hpre : ([' ', '\''].isPrefixOf (c :: rest)) = false := by
      cases rest with
      | nil => simp [List.isPrefixOf]
      | cons d rest' =>
        have hd := h d (by simp)
        simp [List.isPrefixOf]
        intro _ h'
        exact absurd h'.symm hd
    simp only [jsIndexOfAux, hpre]
    simp only [Bool.false_eq_true, if_false]
    exact ih (fun c' hc' => h c' (by simp [hc'])) (i + 1)

/-- Every character of `bigQ` is one of `a`, space, `\"`, `c`, `d`. -/
theorem bigQ_chars : ∀ c ∈ bigQ, c = 'a' ∨ c = ' ' ∨ c = '"' ∨ c = 'c' ∨ c = 'd' := by
  intro c hc
  simp only [bigQ, List.mem_cons, List.mem_append, List.mem_flatten] at hc
  rcases hc with (rfl | rfl | ⟨l, hl, hcl⟩) | hc
  · left; rfl
  · right; left; rfl
  · rw [List.eq_of_mem_replicate hl] at hcl
    simp only [Bblk, List.mem_cons, List.not_mem_nil, or_false] at hcl
    rcases hcl with rfl | rfl | rfl | rfl
    · right; right; left; rfl
    · right; right; right; left; rfl
    · right; left; rfl
    · right; right; right; right; rfl
  · rcases hc with rfl | h
    · right; right; left; rfl
    · cases h

/-- Scanning enters a processed block and leaves holding its interior. -/
theorem spanGo_none_P (rest : JStr) :
    spanGo '"' none (BblkP ++ rest) = spanGo '"' (some ['d', NUL, 'c']) rest := rfl

/-- A processed block contains no space, so scanning passes through it. -/
theorem spanGo_P_step (rest : JStr) :
    spanGo '"' (some ['d', NUL, 'c']) (BblkP ++ rest)
      = spanGo '"' (some ['d', NUL, 'c']) rest := rfl

/-- Scanning passes through any run of processed blocks. -/
theorem spanGo_P_skip : ∀ (k : Nat) (rest : JStr),
    spanGo '"' (some ['d', NUL, 'c']) ((List.replicate k BblkP).flatten ++ rest)
      = spanGo '"' (some ['d', NUL, 'c']) rest := by
  intro k
  induction k with
  | zero => intro rest; simp
  | succ k ih =>
    intro rest
    rw [List.replicate_succ, List.flatten_cons, List.append_assoc, spanGo_P_step]
    exact ih rest

/-- An unprocessed block followed by a quote is the next match (entry from outside quotes). -/
theorem spanGo_close_none (t : JStr) :
    spanGo '"' none (Bblk ++ '"' :: t) = some span5 := rfl

/-- An unprocessed block followed by a quote is the next match (entry after processed blocks). -/
theorem spanGo_close_dnc (t : JStr) :
    spanGo '"' (some ['d', NUL, 'c']) (Bblk ++ '"' :: t) = some span5 := rfl

/-- The unprocessed suffix of the witness always starts with a quote. -/
theorem blk_tail : ∀ m : Nat, ∃ t : JStr,
    (List.replicate m Bblk).flatten ++ ['"'] = '"' :: t := by
  intro m
  cases m with
  | zero => exact ⟨[], rfl⟩
  | succ m =>
    refine ⟨'c' :: ' ' :: 'd' :: ((List.replicate m Bblk).flatten ++ ['"']), ?_⟩
    rw [List.replicate_succ, List.flatten_cons, List.append_assoc]
    rfl

/-- Scanning skips the leading `a` and space. -/
theorem spanGo_skip_aw (x : JStr) :
    spanGo '"' none ('a' :: ' ' :: x) = spanGo '"' none x := rfl

/-- At every intermediate state of the loop on `bigQ` with at least one
unprocessed block left, the regex finds the span `\"c d\"`. -/
theorem firstSpan_Qstate (k m : Nat) :
    firstQuotedSpan '"' (Qstate k (m + 1)) = some span5 := by
  obtain ⟨t, ht⟩ := blk_tail m
  have hsplit : Qstate k (m + 1)
      = 'a' :: ' ' :: ((List.replicate k BblkP).flatten ++ (Bblk ++ '"' :: t)) := by
    simp only [Qstate, List.replicate_succ, List.flatten_cons, List.append_assoc,
      List.cons_append]
    rw [ht]
  rw [hsplit]
  unfold firstQuotedSpan
  rw [spanGo_skip_aw]
  cases k with
  | zero =>
    simp only [List.replicate, List.flatten_nil, List.nil_append]
    exact spanGo_close_none t
  | succ k =>
    rw [List.replicate_succ, List.flatten_cons, List.append_assoc, spanGo_none_P,
      spanGo_P_skip]
    exact spanGo_close_dnc t

/-- Replacement search skips the leading `a` and space. -/
theorem rfs_step_aw (r x : JStr) :
    replaceFirstSub span5 r ('a' :: ' ' :: x) = 'a' :: ' ' :: replaceFirstSub span5 r x := rfl

/-- Replacement search passes through a processed block. -/
theorem rfs_step_P (r x : JStr) :
    replaceFirstSub span5 r (BblkP ++ x) = BblkP ++ replaceFirstSub span5 r x := rfl

/-- Replacement search passes through any run of processed blocks. -/
theorem rfs_skip_P (r : JStr) : ∀ (k : Nat) (x : JStr),
    replaceFirstSub span5 r ((List.replicate k BblkP).flatten ++ x)
      = (List.replicate k BblkP).flatten ++ replaceFirstSub span5 r x := by
  intro k
  induction k with
  | zero => intro x; simp
  | succ k ih =>
    intro x
    rw [List.replicate_succ, List.flatten_cons, List.append_assoc, rfs_step_P, ih,
      List.append_assoc]

/-- Replacing the matched span de-spaces the first unprocessed block. -/
theorem rfs_match (t : JStr) :
    replaceFirstSub span5 (spacesToNUL span5) (Bblk ++ '"' :: t)
      = BblkP ++ '"' :: t := by
  have hpre : span5.isPrefixOf ('"' :: 'c' :: ' ' :: 'd' :: '"' :: t) = true := by
    simp [span5, List.isPrefixOf_cons₂]
  show replaceFirstSub span5 (spacesToNUL span5) ('"' :: 'c' :: ' ' :: 'd' :: '"' :: t)
      = BblkP ++ '"' :: t
  rw [replaceFirstSub, if_pos hpre]
  rfl

/-- One loop iteration turns state `(k, m + 1)` into state `(k + 1, m)`. -/
theorem replace_Qstate (k m : Nat) :
    replaceFirstSub span5 (spacesToNUL span5) (Qstate k (m + 1)) = Qstate (k + 1) m := by
  obtain ⟨t, ht⟩ := blk_tail m
  have hsplit : Qstate k (m + 1)
      = 'a' :: ' ' :: ((List.replicate k BblkP).flatten ++ (Bblk ++ '"' :: t)) := by
    simp only [Qstate, List.replicate_succ, List.flatten_cons, List.append_assoc,
      List.cons_append]
    rw [ht]
  rw [hsplit, rfs_step_aw, rfs_skip_P, rfs_match]
  simp only [Qstate, List.replicate_succ', List.flatten_append,
    List.flatten_cons, List.flatten_nil, List.append_nil, List.append_assoc,
    List.cons_append]
  rw [ht]

/-- Started with `len` equal to the number of unprocessed blocks, the loop
runs out of budget: the final `len` is 0. -/
theorem spanLoop_Qstate : ∀ (m k : Nat), (spanLoop '"' (m + 1) (Qstate k (m + 1))).2 = 0 := by
  intro m
  induction m with
  | zero =>
    intro k
    simp only [spanLoop, firstSpan_Qstate k 0]
  | succ m ih =>
    intro k
    show (spanLoop '"' (m + 2) (Qstate k (m + 2))).2 = 0
    simp only [spanLoop, firstSpan_Qstate k (m + 1), replace_Qstate k (m + 1)]
    exact ih (k + 1)

/-- The witness input is the initial loop state. -/
theorem bigQ_eq_Qstate : Qstate 0 1024 = bigQ := rfl

/-- When the substitution loop exhausts its budget, the quote stage fails with `parseLimit`. -/
theorem spanStage_parseLimit (qc : Char) (q3 q5 : JStr)
    (hsp : spanLoop qc 1024 (escEncode qc q3) = (q5, 0)) :
    spanStage qc q3 = .parseLimit := by
  simp only [spanStage, hsp]
  rfl

set_option maxRecDepth 4000 in
/-- The 1024-span command `bigQ` drives the tokenizer into the parsing limit. -/
theorem bigQ_parseLimit : buildFrame bigQ = .parseLimit := by
  have h1 : ctlToSpace bigQ = bigQ := by
    unfold ctlToSpace
    apply map_id_of_fixed
    intro c hc
    rcases bigQ_chars c hc with rfl | rfl | rfl | rfl | rfl <;> decide
  have h2 : stripEdges bigQ = bigQ := by
    unfold stripEdges
    apply stripEdgesAux_id
    intro c hc
    rcases bigQ_chars c hc with rfl | rfl | rfl | rfl | rfl <;> decide
  have h3 : collapseCRLF bigQ.length bigQ = bigQ := by
    apply collapseCRLF_id
    intro c hc
    rcases bigQ_chars c hc with rfl | rfl | rfl | rfl | rfl <;> decide
  have h4 : hasLetter bigQ = true := by decide
  have h5 : jsIndexOf [' ', '"'] bigQ = some 1 := by decide
  have h6 : jsIndexOf [' ', '\''] bigQ = none := by
    unfold jsIndexOf
    apply jsIndexOfAux_apos_none
    intro c hc
    rcases bigQ_chars c hc with rfl | rfl | rfl | rfl | rfl <;> decide
  have h7 : escEncode '"' bigQ = bigQ := by
    unfold escEncode
    apply escEncodeAux_id
    intro c hc
    rcases bigQ_chars c hc with rfl | rfl | rfl | rfl | rfl <;> decide
  have h8 : (spanLoop '"' 1024 bigQ).2 = 0 := by
    rw [← bigQ_eq_Qstate]
    exact spanLoop_Qstate 1023 0
  have hq3 : normalizeQ bigQ = bigQ := by
    simp only [normalizeQ, h1, h2, h3]
  rcases hsp : spanLoop '"' 1024 bigQ with ⟨q5, len'⟩
  have hlen : len' = 0 := by rw [hsp] at h8; exact h8
  subst hlen
  have hsp2 : spanLoop '"' 1024 (escEncode '"' bigQ) = (q5, 0) := by
    rw [h7]; exact hsp
  have hspan := spanStage_parseLimit '"' bigQ q5 hsp2
  simp only [buildFrame, hq3, h4, h5, h6]
  simp only [Bool.not_true, Bool.false_eq_true, if_false]
  rw [if_neg (by simp)]
  exact hspan

/-- Claim C7.  The quoted-span substitution loop of `query` performs at most
1023 replacements for any input (the fixed ceiling 1024 of redis.js:173,217),
and whenever the ceiling is reached (`buildFrame` returns the parse-limit
failure) `query` on a connected client returns `null` with the status
`Query parsing limit exceeded` instead of looping unboundedly or hanging —
the loop is fuel-bounded by construction, so termination holds for every
command string. -/
theorem c7_parsing_limit :
    (∀ (qc : Char) (q : JStr), spanLoopIters qc 1024 q ≤ 1023)
    ∧ (∀ (s : RState) (q : JStr) (send : SendOutcome) (wire : Option (Option JStr)),
        s.connection = true → buildFrame q = .parseLimit →
        Redis.query s q send wire = some ({ s with status := parseLimitMsg }, none)) := by
  constructor
  · intro qc q
    have := spanLoopIters_le qc 1024 q
    omega
  · intro s q send wire hc hb
    have hq : q ≠ [] := by
      intro hq
      subst hq
      rw [show buildFrame [] = BuildResult.invalidFormat from rfl] at hb
      cases hb
    simp only [Redis.query, hq, hc, hb]
    simp

/-- Witness for C7: on `bigQ` — 1024 quoted spans — the ceiling is reached
and `query` fails with the parsing-limit status. -/
theorem c7_parsing_limit_witness :
    Redis.query ⟨[], some 0, true, none, false⟩ bigQ .ok none
      = some (⟨parseLimitMsg, some 0, true, none, false⟩, none) :=
  c7_parsing_limit.2 ⟨[], some 0, true, none, false⟩ bigQ .ok none rfl bigQ_parseLimit
